import Mathlib

/-!
Verification development for the jigolo interactive snippet-library TUI.

The definitions below are a shallow embedding of the Rust sources
(src/tui/app.rs and src/library.rs).  Machine integers are modelled as
Nat; the scroll field of ContentState is a u16 in the source, so every
write to it is taken modulo 2 ^ 16.  File-system reads and writes are
modelled by explicit state passing: the snippet store is an optional
snippet list (missing file = none) together with a writability flag, and
content-file reads are a function from path to optional contents carried
in an environment record.  External collaborators (the tree widget, the
terminal) are modelled by opaque state transformers in the same
environment record, since the app only observes the selected identifier
list of the tree.
-/

set_option maxRecDepth 4000

/-- Number of bits of the u16 scroll field. -/
def u16Mod : Nat := 65536

/-- Splitting a character list at every newline character, keeping empty
segments, mirroring the segment structure used by the str lines iterator
of Rust. -/
def splitNl : List Char → List (List Char)
  | [] => [[]]
  | c :: rest =>
    if c = '\n' then [] :: splitNl rest
    else
      match splitNl rest with
      | [] => [[c]]
      | l :: ls => (c :: l) :: ls

/-- Remove one trailing carriage return, as the Rust lines iterator does for
lines terminated by a carriage return plus line feed. -/
def stripCr (l : List Char) : List Char :=
  if l.getLast? = some '\r' then l.dropLast else l

/-- Apply a function to every element except the last one. -/
def mapExceptLast (f : α → α) : List α → List α
  | [] => []
  | [a] => [a]
  | a :: b :: rest => f a :: mapExceptLast f (b :: rest)

/-- The Rust str lines iterator on a character list: split at line feeds,
drop the final empty segment produced by a trailing line feed (or by the
empty string), and strip the carriage return of every line that was
terminated by a line feed. -/
def rustLinesData (s : List Char) : List (List Char) :=
  let parts := splitNl s
  if parts.getLast? = some [] then (parts.dropLast).map stripCr
  else mapExceptLast stripCr parts

/-- The Rust str lines iterator, as a list of strings. -/
def rustLines (s : String) : List String :=
  (rustLinesData s.data).map (fun l => String.mk l)

/-- Rust str trim: remove whitespace characters from both ends. -/
def rustTrim (s : String) : String :=
  String.mk (((s.data.dropWhile Char.isWhitespace).reverse.dropWhile Char.isWhitespace).reverse)

/-- Rust String replace with a character pattern: every occurrence of the
character is replaced by the replacement string. -/
def rustReplaceChar (c : Char) (rep : String) (s : String) : String :=
  String.mk (s.data.foldr (fun x acc => if x = c then rep.data ++ acc else x :: acc) [])

/-- ContentState from src/tui/app.rs: the loaded text, the u16 scroll
offset, the cursor line index, the optional visual anchor and the u16
viewport height captured during draw. -/
structure ContentState where
  text : Option String
  scroll : Nat
  cursor : Nat
  visual_anchor : Option Nat
  viewport_height : Nat
  deriving Repr, DecidableEq

/-- ContentState::new. -/
def ContentState.new : ContentState :=
  { text := none, scroll := 0, cursor := 0, visual_anchor := none, viewport_height := 0 }

/-- ContentState::line_count. -/
def ContentState.line_count (st : ContentState) : Nat :=
  match st.text with
  | none => 0
  | some t => (rustLines t).length

/-- ContentState::max_cursor. -/
def ContentState.max_cursor (st : ContentState) : Nat :=
  st.line_count - 1

/-- ContentState::ensure_cursor_visible.  The two writes to scroll go
through a cast to u16 in the source, hence the reductions modulo 2 ^ 16. -/
def ContentState.ensure_cursor_visible (st : ContentState) : ContentState :=
  if st.cursor < st.scroll then { st with scroll := st.cursor % u16Mod }
  else if 0 < st.viewport_height ∧ st.scroll + st.viewport_height ≤ st.cursor then
    { st with scroll := (st.cursor - st.viewport_height + 1) % u16Mod }
  else st

/-- ContentState::cursor_down. -/
def ContentState.cursor_down (st : ContentState) : ContentState :=
  if st.cursor < st.max_cursor then
    ContentState.ensure_cursor_visible { st with cursor := st.cursor + 1 }
  else st

/-- ContentState::cursor_up. -/
def ContentState.cursor_up (st : ContentState) : ContentState :=
  ContentState.ensure_cursor_visible { st with cursor := st.cursor - 1 }

/-- ContentState::cursor_page_down. -/
def ContentState.cursor_page_down (st : ContentState) : ContentState :=
  let page := max st.viewport_height 1
  ContentState.ensure_cursor_visible { st with cursor := min (st.cursor + page) st.max_cursor }

/-- ContentState::cursor_page_up. -/
def ContentState.cursor_page_up (st : ContentState) : ContentState :=
  let page := max st.viewport_height 1
  ContentState.ensure_cursor_visible { st with cursor := st.cursor - page }

/-- ContentState::load_text: tab characters are replaced by four spaces and
cursor, scroll and anchor are reset. -/
def ContentState.load_text (st : ContentState) (raw : String) : ContentState :=
  { st with
    text := some (rustReplaceChar '\t' "    " raw)
    scroll := 0
    cursor := 0
    visual_anchor := none }

/-- ContentState::selection_range. -/
def ContentState.selection_range (st : ContentState) : Option (Nat × Nat) :=
  match st.visual_anchor with
  | none => none
  | some anchor => some (min anchor st.cursor, max anchor st.cursor)

/-- Inclusive slice of a list, from index s to index e. -/
def sliceIncl (s e : Nat) (l : List α) : List α :=
  (l.drop s).take (e + 1 - s)

/-- ContentState::selected_text. -/
def ContentState.selected_text (st : ContentState) : Option String :=
  match st.selection_range with
  | none => none
  | some (s, e) =>
    match st.text with
    | none => none
    | some t =>
      let lines := rustLines t
      if lines.length ≤ s then none
      else some (String.intercalate "\n" (sliceIncl s (min e (lines.length - 1)) lines))

/-- Snippet from src/library.rs. -/
structure Snippet where
  title : String
  content : String
  source : String
  deriving Repr, DecidableEq

/-- SnippetLibrary from src/library.rs. -/
structure SnippetLibrary where
  snippets : List Snippet
  deriving Repr, DecidableEq

/-- The snippet store file, modelled by its parsed contents: none stands
for a missing file.  The writable flag makes save_library fallible, which
models an unwritable location.  TOML parse failures of an existing file
are not modelled, so load_library below never returns an error even
though its type is fallible, like the source function. -/
structure FileStore where
  file : Option SnippetLibrary
  writable : Bool
  deriving Repr, DecidableEq

/-- load_library from src/library.rs: a missing file yields the default
empty library rather than an error. -/
def load_library (fs : FileStore) : Except String SnippetLibrary :=
  match fs.file with
  | none => .ok { snippets := [] }
  | some lib => .ok lib

/-- save_library from src/library.rs: replaces the file contents, or fails
when the store is not writable. -/
def save_library (lib : SnippetLibrary) (fs : FileStore) : Except String FileStore :=
  if fs.writable then .ok { fs with file := some lib }
  else .error "write failed"

/-- append_snippet from src/library.rs: load, push, save. -/
def append_snippet (s : Snippet) (fs : FileStore) : Except String FileStore := do
  let lib ← load_library fs
  save_library { snippets := lib.snippets ++ [s] } fs

/-- delete_snippet from src/library.rs: removal by index, a no-op (without
a save) when the index is out of range. -/
def delete_snippet (index : Nat) (fs : FileStore) : Except String FileStore := do
  let lib ← load_library fs
  if index < lib.snippets.length then
    save_library { snippets := lib.snippets.eraseIdx index } fs
  else .ok fs

/-- Replace the element at an index, leaving the list unchanged when the
index is out of range. -/
def modifyIdx (f : α → α) : Nat → List α → List α
  | _, [] => []
  | 0, a :: rest => f a :: rest
  | n + 1, a :: rest => a :: modifyIdx f n rest

/-- rename_snippet from src/library.rs: retitle by index, a no-op (without
a save) when the index is out of range. -/
def rename_snippet (index : Nat) (new_title : String) (fs : FileStore) :
    Except String FileStore := do
  let lib ← load_library fs
  if index < lib.snippets.length then
    save_library { snippets := modifyIdx (fun s => { s with title := new_title }) index lib.snippets } fs
  else .ok fs

/-- The two panes of the session. -/
inductive Pane where
  | fileList
  | content
  deriving Repr, DecidableEq

/-- The mode tag of the session state machine. -/
inductive Mode where
  | normal
  | visualSelect
  | titleInput
  | libraryBrowse
  | renameInput
  deriving Repr, DecidableEq

/-- The key codes the app distinguishes. -/
inductive KeyCode where
  | char (c : Char)
  | tab
  | enter
  | esc
  | backspace
  | down
  | up
  | left
  | right
  | pageDown
  | pageUp
  | other
  deriving Repr, DecidableEq

/-- A key event: the code plus whether the control modifier is held. -/
structure KeyEvent where
  code : KeyCode
  ctrl : Bool
  deriving Repr, DecidableEq

/-- The part of the external tree widget state the app observes: the
identifier list of the selected node (one segment for a root, two for a
file). -/
structure TreeState where
  selected : List String
  deriving Repr, DecidableEq

/-- App from src/tui/app.rs, with the external tree widget state reduced
to the selected identifier list it exposes to the app. -/
structure App where
  exit : Bool
  mode : Mode
  tree_state : TreeState
  active_pane : Pane
  content : ContentState
  title_input : String
  status_message : Option String
  library : Option SnippetLibrary
  library_selected : Nat
  deriving Repr, DecidableEq

/-- One root directory with its discovered files, from src/model.rs, with
paths as strings. -/
structure SourceRoot where
  path : String
  files : List String
  deriving Repr, DecidableEq

/-- The external collaborators of the session: content-file reads,
whether the library storage path resolves, and the traversal operations
of the external tree widget, which the app treats as black boxes. -/
structure Env where
  readFile : String → Option String
  hasLibPath : Bool
  treeDown : TreeState → TreeState
  treeUp : TreeState → TreeState
  treeLeft : TreeState → TreeState
  treeRight : TreeState → TreeState
  treeToggle : TreeState → TreeState

/-- The session together with the snippet store it reads and writes. -/
structure World where
  app : App
  store : FileStore

/-- App::load_file_content: a read failure substitutes a synthesized error
string as the content. -/
def load_file_content (env : Env) (path : String) (a : App) : App :=
  let text :=
    match env.readFile path with
    | some t => t
    | none => "Error reading " ++ path
  { a with content := a.content.load_text text }

/-- App::load_selected_content: only a two-segment selection (a file)
triggers a content load. -/
def load_selected_content (env : Env) (a : App) : App :=
  if a.tree_state.selected.length < 2 then a
  else
    match a.tree_state.selected.getLast? with
    | some path => load_file_content env path a
    | none => a

/-- App::select_tree_item: toggle a root, then reload the selected
content (which does nothing unless a file is selected). -/
def select_tree_item (env : Env) (a : App) : App :=
  if a.tree_state.selected = [] then a
  else
    let a := if a.tree_state.selected.length = 1 then { a with tree_state := env.treeToggle a.tree_state } else a
    load_selected_content env a

/-- App::reset_to_normal. -/
def reset_to_normal (a : App) : App :=
  { a with
    mode := .normal
    content := { a.content with visual_anchor := none }
    title_input := "" }

/-- App::current_source_path: the last segment of the tree selection, or
the empty string. -/
def current_source_path (a : App) : String :=
  (a.tree_state.selected.getLast?).getD ""

/-- App::save_current_snippet_to. -/
def save_current_snippet_to (a : App) (fs : FileStore) : App × FileStore :=
  let title := rustTrim a.title_input
  if title = "" then
    ({ a with status_message := some "Title cannot be empty." }, fs)
  else
    match a.content.selected_text with
    | none =>
      (reset_to_normal { a with status_message := some "No text selected." }, fs)
    | some selected_text =>
      let snippet : Snippet :=
        { title := title, content := selected_text, source := current_source_path a }
      match append_snippet snippet fs with
      | .ok fs2 =>
        (reset_to_normal { a with status_message := some "Snippet saved!" }, fs2)
      | .error err =>
        (reset_to_normal { a with status_message := some ("Save failed: " ++ err) }, fs)

/-- App::save_current_snippet: resolve the library path, then save; an
unresolvable path aborts with a status and a reset to Normal. -/
def save_current_snippet (env : Env) (w : World) : World :=
  if env.hasLibPath then
    let (a, fs) := save_current_snippet_to w.app w.store
    { app := a, store := fs }
  else
    { w with app := reset_to_normal { w.app with status_message := some "Cannot determine library path." } }

/-- App::enter_library_browse_from: load the library view and enter
browse mode with index zero; a load failure only sets a status. -/
def enter_library_browse_from (a : App) (fs : FileStore) : App :=
  match load_library fs with
  | .ok lib => { a with library := some lib, library_selected := 0, mode := .libraryBrowse }
  | .error err => { a with status_message := some ("Failed to load library: " ++ err) }

/-- App::enter_library_browse. -/
def enter_library_browse (env : Env) (w : World) : World :=
  if env.hasLibPath then { w with app := enter_library_browse_from w.app w.store }
  else { w with app := { w.app with status_message := some "Cannot determine library path." } }

/-- App::delete_library_snippet_from. -/
def delete_library_snippet_from (a : App) (fs : FileStore) : App × FileStore :=
  let snippet_count := (a.library.map (fun lib => lib.snippets.length)).getD 0
  if snippet_count = 0 then (a, fs)
  else
    match delete_snippet a.library_selected fs with
    | .ok fs2 =>
      let a :=
        match load_library fs2 with
        | .ok lib =>
          let new_len := lib.snippets.length
          let a := { a with library := some lib }
          if a.library_selected ≥ new_len ∧ 0 < new_len then
            { a with library_selected := new_len - 1 }
          else if new_len = 0 then { a with library_selected := 0 }
          else a
        | .error _ => a
      ({ a with status_message := some "Snippet deleted." }, fs2)
    | .error err =>
      ({ a with status_message := some ("Delete failed: " ++ err) }, fs)

/-- App::delete_library_snippet. -/
def delete_library_snippet (env : Env) (w : World) : World :=
  if env.hasLibPath then
    let (a, fs) := delete_library_snippet_from w.app w.store
    { app := a, store := fs }
  else
    { w with app := { w.app with status_message := some "Cannot determine library path." } }

/-- App::rename_library_snippet_from. -/
def rename_library_snippet_from (a : App) (fs : FileStore) : App × FileStore :=
  let new_title := rustTrim a.title_input
  if new_title = "" then
    ({ a with status_message := some "Title cannot be empty." }, fs)
  else
    match rename_snippet a.library_selected new_title fs with
    | .ok fs2 =>
      let a :=
        match load_library fs2 with
        | .ok lib => { a with library := some lib }
        | .error _ => a
      ({ a with
          status_message := some "Snippet renamed."
          title_input := ""
          mode := .libraryBrowse }, fs2)
    | .error err =>
      ({ a with
          status_message := some ("Rename failed: " ++ err)
          title_input := ""
          mode := .libraryBrowse }, fs)

/-- App::rename_library_snippet. -/
def rename_library_snippet (env : Env) (w : World) : World :=
  if env.hasLibPath then
    let (a, fs) := rename_library_snippet_from w.app w.store
    { app := a, store := fs }
  else
    { w with app :=
        { w.app with
          status_message := some "Cannot determine library path."
          title_input := ""
          mode := .libraryBrowse } }

/-- App::handle_normal_key.  The quit key works from either pane; the
tree keys act in the file pane, the cursor keys in the content pane. -/
def handle_normal_key (env : Env) (k : KeyEvent) (w : World) : World :=
  let a := w.app
  match k.code with
  | .char c =>
    if c = 'q' then { w with app := { a with exit := true } }
    else if c = 'j' then
      if a.active_pane = .fileList then
        { w with app := load_selected_content env { a with tree_state := env.treeDown a.tree_state } }
      else { w with app := { a with content := a.content.cursor_down } }
    else if c = 'k' then
      if a.active_pane = .fileList then
        { w with app := load_selected_content env { a with tree_state := env.treeUp a.tree_state } }
      else { w with app := { a with content := a.content.cursor_up } }
    else if c = 'h' then
      if a.active_pane = .fileList then
        { w with app := load_selected_content env { a with tree_state := env.treeLeft a.tree_state } }
      else w
    else if c = 'l' then
      if a.active_pane = .fileList then
        { w with app := load_selected_content env { a with tree_state := env.treeRight a.tree_state } }
      else w
    else if c = 'v' then
      if a.active_pane = .content then
        { w with app :=
            { a with
              content := { a.content with visual_anchor := some a.content.cursor }
              mode := .visualSelect } }
      else w
    else if c = 'L' then
      if a.active_pane = .content then enter_library_browse env w else w
    else w
  | .tab =>
    { w with app :=
        { a with active_pane := if a.active_pane = .fileList then .content else .fileList } }
  | .enter =>
    if a.active_pane = .fileList then { w with app := select_tree_item env a } else w
  | .down =>
    if a.active_pane = .fileList then
      { w with app := load_selected_content env { a with tree_state := env.treeDown a.tree_state } }
    else { w with app := { a with content := a.content.cursor_down } }
  | .up =>
    if a.active_pane = .fileList then
      { w with app := load_selected_content env { a with tree_state := env.treeUp a.tree_state } }
    else { w with app := { a with content := a.content.cursor_up } }
  | .left =>
    if a.active_pane = .fileList then
      { w with app := load_selected_content env { a with tree_state := env.treeLeft a.tree_state } }
    else w
  | .right =>
    if a.active_pane = .fileList then
      { w with app := load_selected_content env { a with tree_state := env.treeRight a.tree_state } }
    else w
  | .pageDown =>
    if a.active_pane = .content then
      { w with app := { a with content := a.content.cursor_page_down } }
    else w
  | .pageUp =>
    if a.active_pane = .content then
      { w with app := { a with content := a.content.cursor_page_up } }
    else w
  | _ => w

/-- App::handle_visual_select_key. -/
def handle_visual_select_key (k : KeyEvent) (w : World) : World :=
  let a := w.app
  match k.code with
  | .esc =>
    { w with app := { a with content := { a.content with visual_anchor := none }, mode := .normal } }
  | .down => { w with app := { a with content := a.content.cursor_down } }
  | .up => { w with app := { a with content := a.content.cursor_up } }
  | .char c =>
    if c = 'j' then { w with app := { a with content := a.content.cursor_down } }
    else if c = 'k' then { w with app := { a with content := a.content.cursor_up } }
    else if c = 's' then { w with app := { a with title_input := "", mode := .titleInput } }
    else w
  | _ => w

/-- App::handle_title_input_key. -/
def handle_title_input_key (env : Env) (k : KeyEvent) (w : World) : World :=
  let a := w.app
  match k.code with
  | .esc => { w with app := { a with title_input := "", mode := .visualSelect } }
  | .enter => save_current_snippet env w
  | .backspace => { w with app := { a with title_input := a.title_input.dropRight 1 } }
  | .char c => { w with app := { a with title_input := a.title_input.push c } }
  | _ => w

/-- App::handle_library_browse_key. -/
def handle_library_browse_key (env : Env) (k : KeyEvent) (w : World) : World :=
  let a := w.app
  match k.code with
  | .esc => { w with app := { a with library := none, mode := .normal } }
  | .down =>
    let m := (a.library.map (fun lib => lib.snippets.length - 1)).getD 0
    if a.library_selected < m then
      { w with app := { a with library_selected := a.library_selected + 1 } }
    else w
  | .up => { w with app := { a with library_selected := a.library_selected - 1 } }
  | .char c =>
    if c = 'q' then { w with app := { a with library := none, mode := .normal } }
    else if c = 'j' then
      let m := (a.library.map (fun lib => lib.snippets.length - 1)).getD 0
      if a.library_selected < m then
        { w with app := { a with library_selected := a.library_selected + 1 } }
      else w
    else if c = 'k' then
      { w with app := { a with library_selected := a.library_selected - 1 } }
    else if c = 'd' then delete_library_snippet env w
    else if c = 'r' then
      match a.library with
      | some lib =>
        match lib.snippets.get? a.library_selected with
        | some snippet =>
          { w with app := { a with title_input := snippet.title, mode := .renameInput } }
        | none => w
      | none => w
    else w
  | _ => w

/-- App::handle_rename_input_key. -/
def handle_rename_input_key (env : Env) (k : KeyEvent) (w : World) : World :=
  let a := w.app
  match k.code with
  | .esc => { w with app := { a with title_input := "", mode := .libraryBrowse } }
  | .enter => rename_library_snippet env w
  | .backspace => { w with app := { a with title_input := a.title_input.dropRight 1 } }
  | .char c => { w with app := { a with title_input := a.title_input.push c } }
  | _ => w

/-- App::handle_key_event: clear the transient status, honor the global
control-c exit, then dispatch on the mode. -/
def handle_key_event (env : Env) (k : KeyEvent) (w : World) : World :=
  let w : World := { w with app := { w.app with status_message := none } }
  if k.code = .char 'c' ∧ k.ctrl then
    { w with app := { w.app with exit := true } }
  else
    match w.app.mode with
    | .normal => handle_normal_key env k w
    | .visualSelect => handle_visual_select_key k w
    | .titleInput => handle_title_input_key env k w
    | .libraryBrowse => handle_library_browse_key env k w
    | .renameInput => handle_rename_input_key env k w

/-- App::new: open with the first file of the first root selected when
one exists, otherwise the first root, then load the selected content. -/
def App.new (env : Env) (roots : List SourceRoot) : App :=
  let sel : List String :=
    match roots.head? with
    | some root =>
      match root.files.head? with
      | some f => [root.path, f]
      | none => [root.path]
    | none => []
  let a : App :=
    { exit := false
      mode := .normal
      tree_state := { selected := sel }
      active_pane := .fileList
      content := ContentState.new
      title_input := ""
      status_message := none
      library := none
      library_selected := 0 }
  load_selected_content env a

/-- A fresh session over a given store. -/
def initWorld (env : Env) (roots : List SourceRoot) (fs : FileStore) : World :=
  { app := App.new env roots, store := fs }

/-- The states the session loop can reach: a fresh session over any root
set and store contents, closed under handling one key event. -/
inductive Reachable (env : Env) : World → Prop where
  | start : ∀ roots fs, Reachable env (initWorld env roots fs)
  | step : ∀ w k, Reachable env w → Reachable env (handle_key_event env k w)

lemma except_ok_bind (x : α) (f : α → Except ε β) :
    (do let y ← Except.ok x; f y) = f x := rfl

lemma foldr_replace_eq_flatMap (c : Char) (rep : List Char) (l : List Char) :
    l.foldr (fun x acc => if x = c then rep ++ acc else x :: acc) [] =
    l.flatMap (fun x => if x = c then rep else [x]) := by
  induction l with
  | nil => rfl
  | cons x xs ih =>
    simp only [List.foldr_cons, List.flatMap_cons, ih]
    split <;> simp

/-- Claim C3: load_text sets the buffer text to the raw string with every
horizontal-tab character replaced by four spaces, and resets the cursor to
zero, the scroll to zero and the selection anchor to none, whatever the
prior state was. -/
theorem C3_load_text_normalizes_tabs_and_resets (st : ContentState) (raw : String) :
    st.load_text raw =
      { st with
        text := some (String.mk (raw.data.flatMap
          (fun c => if c = '\t' then [' ', ' ', ' ', ' '] else [c])))
        scroll := 0
        cursor := 0
        visual_anchor := none } := by
  have hrep : ("    " : String).data = [' ', ' ', ' ', ' '] := rfl
  simp only [ContentState.load_text, rustReplaceChar, hrep, foldr_replace_eq_flatMap]

/-- Run a sequence of append_snippet calls, stopping at the first error. -/
def appendAll (snips : List Snippet) (fs : FileStore) : Except String FileStore :=
  match snips with
  | [] => .ok fs
  | s :: rest => do
    let fs2 ← append_snippet s fs
    appendAll rest fs2

lemma appendAll_writable (snips : List Snippet) (lib : SnippetLibrary) :
    appendAll snips { file := some lib, writable := true } =
      .ok { file := some { snippets := lib.snippets ++ snips }, writable := true } := by
  induction snips generalizing lib with
  | nil => simp [appendAll]
  | cons s rest ih =>
    have h1 : appendAll (s :: rest) { file := some lib, writable := true } =
        appendAll rest { file := some { snippets := lib.snippets ++ [s] }, writable := true } := rfl
    rw [h1, ih]
    simp

/-- Claim C8: starting from missing storage (where load yields the empty
library, not an error), any sequence of append_snippet calls succeeds and
a final load_library returns exactly the appended snippets in insertion
order. -/
theorem C8_append_then_load_round_trip (snips : List Snippet) :
    load_library { file := none, writable := true } = .ok { snippets := [] } ∧
    ∃ fs2, appendAll snips { file := none, writable := true } = .ok fs2 ∧
      load_library fs2 = .ok { snippets := snips } := by
  refine ⟨rfl, ?_⟩
  cases snips with
  | nil => exact ⟨_, rfl, rfl⟩
  | cons s rest =>
    refine ⟨{ file := some { snippets := s :: rest }, writable := true }, ?_, rfl⟩
    have h1 : appendAll (s :: rest) { file := none, writable := true } =
        appendAll rest { file := some { snippets := [s] }, writable := true } := rfl
    rw [h1, appendAll_writable]
    simp

/-- Claim C2: on Enter in TitleInput (save): an empty trimmed title
produces an error status and leaves the mode in TitleInput; a non-empty
title with no selected text produces an error status and falls back to
Normal; a non-empty title with selected text appends exactly one snippet
made of the title, the joined selected lines and the current tree-node
identity to the library, shows a confirmation status, clears the title
buffer and the anchor and returns to Normal.  The last branch is stated
for a writable store, which is the success case the spec describes. -/
theorem C2_save_current_snippet_to (a : App) (fs : FileStore)
    (hm : a.mode = .titleInput) :
    (rustTrim a.title_input = "" →
      save_current_snippet_to a fs =
        ({ a with status_message := some "Title cannot be empty." }, fs) ∧
      (save_current_snippet_to a fs).1.mode = .titleInput) ∧
    (rustTrim a.title_input ≠ "" → a.content.selected_text = none →
      save_current_snippet_to a fs =
        ({ a with
            status_message := some "No text selected."
            mode := .normal
            content := { a.content with visual_anchor := none }
            title_input := "" }, fs)) ∧
    (∀ txt lib, rustTrim a.title_input ≠ "" → a.content.selected_text = some txt →
      load_library fs = .ok lib → fs.writable = true →
      save_current_snippet_to a fs =
        ({ a with
            status_message := some "Snippet saved!"
            mode := .normal
            content := { a.content with visual_anchor := none }
            title_input := "" },
         { fs with file := some { snippets := lib.snippets ++
            [{ title := rustTrim a.title_input
               content := txt
               source := current_source_path a }] } })) := by
  refine ⟨?_, ?_, ?_⟩
  · intro he
    constructor
    · simp [save_current_snippet_to, he]
    · simp [save_current_snippet_to, he, hm]
  · intro hne hsel
    simp [save_current_snippet_to, hne, hsel, reset_to_normal]
  · intro txt lib hne hsel hload hw
    have hfile : fs.file.getD { snippets := [] } = lib := by
      cases hf : fs.file <;> simp [load_library, hf] at hload <;> simp [hload]
    have happ : append_snippet
        { title := rustTrim a.title_input, content := txt, source := current_source_path a } fs =
        .ok { fs with file := some { snippets := lib.snippets ++
          [{ title := rustTrim a.title_input, content := txt, source := current_source_path a }] } } := by
      cases hf : fs.file with
      | none =>
        simp [hf] at hfile
        simp [append_snippet, load_library, save_library, hf, hw, Except.bind, ← hfile]
        rfl
      | some l =>
        simp [hf] at hfile
        simp [append_snippet, load_library, save_library, hf, hw, Except.bind, hfile]
        rfl
    simp [save_current_snippet_to, hne, hsel, happ, reset_to_normal]

/-- Concrete TitleInput state used to witness the save claim. -/
def c2App : App :=
  { exit := false
    mode := .titleInput
    tree_state := { selected := ["/r", "/r/f.md"] }
    active_pane := .content
    content :=
      { text := some "l0\nl1", scroll := 0, cursor := 1, visual_anchor := some 0,
        viewport_height := 5 }
    title_input := " T "
    status_message := none
    library := none
    library_selected := 0 }

/-- Concrete writable store holding an empty library. -/
def c2Store : FileStore := { file := some { snippets := [] }, writable := true }

theorem C2_save_current_snippet_to_witness :
    rustTrim c2App.title_input ≠ "" ∧
    c2App.content.selected_text = some "l0\nl1" ∧
    save_current_snippet_to c2App c2Store =
      ({ c2App with
          status_message := some "Snippet saved!"
          mode := .normal
          content := { c2App.content with visual_anchor := none }
          title_input := "" },
       { c2Store with file := some { snippets :=
          [{ title := "T", content := "l0\nl1", source := "/r/f.md" }] } }) := by
  refine ⟨by decide, by decide, ?_⟩
  have h := (C2_save_current_snippet_to c2App c2Store rfl).2.2 "l0\nl1" { snippets := [] }
    (by decide) (by decide) rfl rfl
  rw [h]
  decide

/-- Claim C4: on d in LibraryBrowse: with an empty (or absent) library
view the operation changes nothing; otherwise, for a view in sync with a
writable store and a valid selected index, the snippet at the selected
index is deleted, the view is reloaded from the store, and the selected
index is renormalized to min selected (newLength - 1), which keeps the
index on a non-last delete and clamps it to the new last index (or zero
on an emptied library) otherwise. -/
theorem C4_delete_library_snippet_from (a : App) (fs : FileStore) :
    ((a.library.map (fun lib => lib.snippets.length)).getD 0 = 0 →
      delete_library_snippet_from a fs = (a, fs)) ∧
    (∀ lib, a.library = some lib → lib.snippets ≠ [] →
      fs.file = some lib → fs.writable = true →
      a.library_selected < lib.snippets.length →
      delete_library_snippet_from a fs =
        ({ a with
            library := some { snippets := lib.snippets.eraseIdx a.library_selected }
            library_selected := min a.library_selected (lib.snippets.length - 1 - 1)
            status_message := some "Snippet deleted." },
         { fs with file := some { snippets := lib.snippets.eraseIdx a.library_selected } })) := by
  constructor
  · intro h0
    simp [delete_library_snippet_from, h0]
  · intro lib hl hne hf hw hs
    have hlen0 : lib.snippets.length ≠ 0 := fun h => hne (List.length_eq_zero.mp h)
    have hdel : delete_snippet a.library_selected fs =
        .ok { fs with file := some { snippets := lib.snippets.eraseIdx a.library_selected } } := by
      simp [delete_snippet, load_library, hf, hs, save_library, hw, except_ok_bind]
    have hel : (lib.snippets.eraseIdx a.library_selected).length =
        lib.snippets.length - 1 := by
      simp [List.length_eraseIdx, hs]
    simp only [delete_library_snippet_from, hl, hdel, load_library, Option.map_some,
      Option.getD_some, hel]
    split_ifs with h0 h1 h2
    · simp [hlen0] at h0
    · have hmin : a.library_selected ⊓ (lib.snippets.length - 1 - 1) =
          lib.snippets.length - 1 - 1 := by omega
      simp [hmin]
    · have hmin : a.library_selected ⊓ (lib.snippets.length - 1 - 1) = 0 := by omega
      simp [hmin]
    · have hmin : a.library_selected ⊓ (lib.snippets.length - 1 - 1) =
          a.library_selected := by omega
      simp [hmin]

/-- Concrete three-snippet library used by the delete witness. -/
def c4Lib : SnippetLibrary :=
  { snippets :=
      [{ title := "A", content := "ca", source := "/t" },
       { title := "B", content := "cb", source := "/t" },
       { title := "C", content := "cc", source := "/t" }] }

/-- Concrete LibraryBrowse state with the middle snippet selected. -/
def c4App : App :=
  { exit := false
    mode := .libraryBrowse
    tree_state := { selected := [] }
    active_pane := .content
    content := ContentState.new
    title_input := ""
    status_message := none
    library := some c4Lib
    library_selected := 1 }

theorem C4_delete_library_snippet_from_witness :
    c4Lib.snippets ≠ [] ∧ c4App.library_selected < c4Lib.snippets.length ∧
    delete_library_snippet_from c4App { file := some c4Lib, writable := true } =
      ({ c4App with
          library := some { snippets :=
            [{ title := "A", content := "ca", source := "/t" },
             { title := "C", content := "cc", source := "/t" }] }
          library_selected := 1
          status_message := some "Snippet deleted." },
       { file := some { snippets :=
          [{ title := "A", content := "ca", source := "/t" },
           { title := "C", content := "cc", source := "/t" }] }, writable := true }) := by
  refine ⟨by decide, by decide, ?_⟩
  have h := (C4_delete_library_snippet_from c4App { file := some c4Lib, writable := true }).2
    c4Lib rfl (by decide) rfl rfl (by decide)
  rw [h]
  decide

/-- Retitle the snippet at an index. -/
def renameAt (t : String) (i : Nat) (l : List Snippet) : List Snippet :=
  modifyIdx (fun s => { s with title := t }) i l

/-- Claim C7: on Enter in RenameInput: an empty trimmed title shows an
error and stays in RenameInput; otherwise, for a valid selected index,
the snippet is renamed through the store, the view is reloaded, the title
buffer is cleared, and the mode returns to LibraryBrowse even when the
write fails, in which case the failure is reported via status and the
store and view are left unchanged. -/
theorem C7_rename_library_snippet_from (a : App) (fs : FileStore)
    (hm : a.mode = .renameInput) :
    (rustTrim a.title_input = "" →
      rename_library_snippet_from a fs =
        ({ a with status_message := some "Title cannot be empty." }, fs) ∧
      (rename_library_snippet_from a fs).1.mode = .renameInput) ∧
    (∀ lib, rustTrim a.title_input ≠ "" → fs.file = some lib → fs.writable = true →
      a.library_selected < lib.snippets.length →
      rename_library_snippet_from a fs =
        ({ a with
            library := some { snippets := renameAt (rustTrim a.title_input) a.library_selected lib.snippets }
            status_message := some "Snippet renamed."
            title_input := ""
            mode := .libraryBrowse },
         { fs with file := some { snippets := renameAt (rustTrim a.title_input) a.library_selected lib.snippets } })) ∧
    (∀ lib, rustTrim a.title_input ≠ "" → fs.file = some lib → fs.writable = false →
      a.library_selected < lib.snippets.length →
      rename_library_snippet_from a fs =
        ({ a with
            status_message := some "Rename failed: write failed"
            title_input := ""
            mode := .libraryBrowse }, fs)) := by
  refine ⟨?_, ?_, ?_⟩
  · intro he
    exact ⟨by simp [rename_library_snippet_from, he], by simp [rename_library_snippet_from, he, hm]⟩
  · intro lib hne hf hw hs
    have hren : rename_snippet a.library_selected (rustTrim a.title_input) fs =
        .ok { fs with file := some { snippets := renameAt (rustTrim a.title_input) a.library_selected lib.snippets } } := by
      simp [rename_snippet, load_library, hf, hs, save_library, hw, except_ok_bind, renameAt]
    simp [rename_library_snippet_from, hne, hren, load_library]
  · intro lib hne hf hw hs
    have hren : rename_snippet a.library_selected (rustTrim a.title_input) fs =
        .error "write failed" := by
      simp [rename_snippet, load_library, hf, hs, save_library, hw, except_ok_bind]
    simp [rename_library_snippet_from, hne, hren]

/-- Concrete RenameInput state over a one-snippet library. -/
def c7App : App :=
  { exit := false
    mode := .renameInput
    tree_state := { selected := [] }
    active_pane := .content
    content := ContentState.new
    title_input := "New Title"
    status_message := none
    library := some { snippets := [{ title := "Old", content := "c", source := "/t" }] }
    library_selected := 0 }

theorem C7_rename_library_snippet_from_witness :
    rustTrim c7App.title_input ≠ "" ∧
    rename_library_snippet_from c7App
        { file := some { snippets := [{ title := "Old", content := "c", source := "/t" }] },
          writable := true } =
      ({ c7App with
          library := some { snippets := [{ title := "New Title", content := "c", source := "/t" }] }
          status_message := some "Snippet renamed."
          title_input := ""
          mode := .libraryBrowse },
       { file := some { snippets := [{ title := "New Title", content := "c", source := "/t" }] },
         writable := true }) := by
  refine ⟨by decide, ?_⟩
  have h := (C7_rename_library_snippet_from c7App
    { file := some { snippets := [{ title := "Old", content := "c", source := "/t" }] },
      writable := true } rfl).2.1
    { snippets := [{ title := "Old", content := "c", source := "/t" }] }
    (by decide) rfl rfl (by decide)
  rw [h]
  decide

/-- State with an active selection whose start lies beyond the last line:
the buffer has one line but the anchor and cursor are at line one. -/
def c5Cex : ContentState :=
  { text := some "a", scroll := 0, cursor := 1, visual_anchor := some 1,
    viewport_height := 0 }

/-- Claim C5, counterexample: a state with an active selection for which
selected_text returns absent rather than a joined text, because the start
of the normalized range lies beyond the last valid line.  The claim as
stated promises a present joined result for every state with an active
selection, with only the end of the range clamped. -/
theorem C5_counterexample :
    c5Cex.visual_anchor.isSome = true ∧
    c5Cex.selection_range = some (1, 1) ∧
    (rustLines "a").length = 1 ∧
    c5Cex.selected_text = none := by
  refine ⟨rfl, rfl, rfl, rfl⟩

/-- Claim C5 as amended: selected_text returns the joined text of the
lines from start to end of the normalized selection range, with end
clamped to the last valid line when the buffer is shorter than end;
it returns absent when no selection is active, and also when no text is
loaded or when start itself lies beyond the last valid line. -/
theorem C5_selected_text_characterization (st : ContentState) :
    (st.selection_range = none → st.selected_text = none) ∧
    (∀ s e, st.selection_range = some (s, e) →
      (st.text = none → st.selected_text = none) ∧
      (∀ t, st.text = some t →
        ((rustLines t).length ≤ s → st.selected_text = none) ∧
        (s < (rustLines t).length →
          st.selected_text = some (String.intercalate "\n"
            (sliceIncl s (min e ((rustLines t).length - 1)) (rustLines t)))))) := by
  refine ⟨?_, ?_⟩
  · intro h
    simp [ContentState.selected_text, h]
  · intro s e hr
    refine ⟨?_, ?_⟩
    · intro ht
      simp [ContentState.selected_text, hr, ht]
    · intro t ht
      refine ⟨?_, ?_⟩
      · intro hle
        simp [ContentState.selected_text, hr, ht, hle]
      · intro hlt
        simp only [ContentState.selected_text, hr, ht]
        rw [if_neg (by omega)]

/-- Concrete state demonstrating the end clamp of the selection range. -/
def c5ClampSt : ContentState :=
  { text := some "l0\nl1\nl2", scroll := 0, cursor := 1, visual_anchor := some 5,
    viewport_height := 0 }

theorem C5_selected_text_characterization_witness :
    c5ClampSt.selection_range = some (1, 5) ∧
    1 < (rustLines "l0\nl1\nl2").length ∧
    c5ClampSt.selected_text = some "l1\nl2" := by
  refine ⟨by decide, by decide, ?_⟩
  have h := ((C5_selected_text_characterization c5ClampSt).2 1 5 (by decide)).2
    "l0\nl1\nl2" rfl
  rw [h.2 (by decide)]
  decide

/-- Concrete environment: no readable files, a resolvable library path,
and inert tree-widget operations. -/
def env9 : Env :=
  { readFile := fun _ => none
    hasLibPath := true
    treeDown := id
    treeUp := id
    treeLeft := id
    treeRight := id
    treeToggle := id }

/-- Reachable LibraryBrowse state over an empty library: fresh session,
Tab into the content pane, then the library key over a missing store. -/
def c9W : World :=
  handle_key_event env9 { code := .char 'L', ctrl := false }
    (handle_key_event env9 { code := .tab, ctrl := false }
      (initWorld env9 [] { file := none, writable := true }))

/-- Claim C9, counterexample: in a reachable LibraryBrowse state whose
library view is empty, pressing r is a no-op: the mode stays LibraryBrowse
instead of transitioning to RenameInput as the claim states for every
LibraryBrowse state. -/
theorem C9_counterexample :
    Reachable env9 c9W ∧
    c9W.app.mode = .libraryBrowse ∧
    c9W.app.library = some { snippets := [] } ∧
    (handle_key_event env9 { code := .char 'r', ctrl := false } c9W).app.mode ≠ .renameInput ∧
    (handle_key_event env9 { code := .char 'r', ctrl := false } c9W).app.mode = .libraryBrowse := by
  refine ⟨?_, by decide, by decide, by decide, by decide⟩
  exact Reachable.step _ _ (Reachable.step _ _ (Reachable.start _ _))

/-- Claim C9 as amended: for every state in LibraryBrowse mode whose
library view holds a snippet at the selected index, pressing r copies the
title of that snippet into the title buffer and transitions the mode to
RenameInput (clearing any transient status, like every key press). -/
theorem C9_library_browse_r (env : Env) (w : World) (lib : SnippetLibrary) (s : Snippet)
    (hm : w.app.mode = .libraryBrowse)
    (hl : w.app.library = some lib)
    (hg : lib.snippets.get? w.app.library_selected = some s) :
    handle_key_event env { code := .char 'r', ctrl := false } w =
      { w with app :=
          { w.app with
            status_message := none
            title_input := s.title
            mode := .renameInput } } := by
  have hg2 : lib.snippets[w.app.library_selected]? = some s := by
    rw [← List.get?_eq_getElem?]
    exact hg
  simp [handle_key_event, handle_library_browse_key, hm, hl, hg2]

/-- Concrete LibraryBrowse world with one snippet selected. -/
def c9W2 : World :=
  { app :=
      { exit := false
        mode := .libraryBrowse
        tree_state := { selected := [] }
        active_pane := .content
        content := ContentState.new
        title_input := ""
        status_message := none
        library := some { snippets := [{ title := "My Snippet", content := "c", source := "/t" }] }
        library_selected := 0 }
    store := { file := some { snippets := [{ title := "My Snippet", content := "c", source := "/t" }] },
               writable := true } }

theorem C9_library_browse_r_witness :
    c9W2.app.mode = .libraryBrowse ∧
    (handle_key_event env9 { code := .char 'r', ctrl := false } c9W2).app.title_input = "My Snippet" ∧
    (handle_key_event env9 { code := .char 'r', ctrl := false } c9W2).app.mode = .renameInput := by
  refine ⟨rfl, ?_, ?_⟩ <;>
    rw [C9_library_browse_r env9 c9W2
      { snippets := [{ title := "My Snippet", content := "c", source := "/t" }] }
      { title := "My Snippet", content := "c", source := "/t" } rfl rfl rfl]

@[simp] lemma ensure_cursor_visible_anchor (c : ContentState) :
    c.ensure_cursor_visible.visual_anchor = c.visual_anchor := by
  unfold ContentState.ensure_cursor_visible
  split_ifs <;> rfl

@[simp] lemma cursor_down_anchor (c : ContentState) :
    c.cursor_down.visual_anchor = c.visual_anchor := by
  unfold ContentState.cursor_down
  split_ifs <;> simp

@[simp] lemma cursor_up_anchor (c : ContentState) :
    c.cursor_up.visual_anchor = c.visual_anchor := by
  unfold ContentState.cursor_up
  simp

@[simp] lemma cursor_page_down_anchor (c : ContentState) :
    c.cursor_page_down.visual_anchor = c.visual_anchor := by
  unfold ContentState.cursor_page_down
  simp

@[simp] lemma cursor_page_up_anchor (c : ContentState) :
    c.cursor_page_up.visual_anchor = c.visual_anchor := by
  unfold ContentState.cursor_page_up
  simp

@[simp] lemma load_file_content_anchor (env : Env) (p : String) (a : App) :
    (load_file_content env p a).content.visual_anchor = none := by
  unfold load_file_content ContentState.load_text
  rfl

@[simp] lemma load_file_content_mode (env : Env) (p : String) (a : App) :
    (load_file_content env p a).mode = a.mode := rfl

lemma load_selected_content_anchor (env : Env) (a : App)
    (h : a.content.visual_anchor = none) :
    (load_selected_content env a).content.visual_anchor = none := by
  unfold load_selected_content
  split_ifs with h1
  · exact h
  · cases a.tree_state.selected.getLast? <;> simp [h]

@[simp] lemma load_selected_content_mode (env : Env) (a : App) :
    (load_selected_content env a).mode = a.mode := by
  unfold load_selected_content
  split_ifs
  · rfl
  · cases a.tree_state.selected.getLast? <;> simp

lemma select_tree_item_anchor (env : Env) (a : App)
    (h : a.content.visual_anchor = none) :
    (select_tree_item env a).content.visual_anchor = none := by
  unfold select_tree_item
  split_ifs <;> first
  | exact h
  | exact load_selected_content_anchor _ _ h

@[simp] lemma select_tree_item_mode (env : Env) (a : App) :
    (select_tree_item env a).mode = a.mode := by
  unfold select_tree_item
  split_ifs <;> simp

@[simp] lemma enter_library_browse_anchor (env : Env) (w : World) :
    (enter_library_browse env w).app.content.visual_anchor =
      w.app.content.visual_anchor := by
  unfold enter_library_browse enter_library_browse_from load_library
  split_ifs
  · cases w.store.file <;> rfl
  · rfl

lemma save_current_snippet_to_anchor_or_mode (a : App) (fs : FileStore) :
    (save_current_snippet_to a fs).1.content.visual_anchor = none ∨
    (save_current_snippet_to a fs).1.mode = a.mode := by
  unfold save_current_snippet_to reset_to_normal
  by_cases ht : rustTrim a.title_input = ""
  · right; simp [ht]
  · simp only [ht, if_false]
    cases hsel : a.content.selected_text with
    | none => left; rfl
    | some t =>
      cases happ : append_snippet
        { title := rustTrim a.title_input, content := t, source := current_source_path a } fs <;>
        simp [hsel, happ]

lemma save_current_snippet_anchor_or_mode (env : Env) (w : World) :
    (save_current_snippet env w).app.content.visual_anchor = none ∨
    (save_current_snippet env w).app.mode = w.app.mode := by
  unfold save_current_snippet reset_to_normal
  split_ifs
  · have := save_current_snippet_to_anchor_or_mode w.app w.store
    unfold reset_to_normal at this
    cases this with
    | inl h => left; simpa using h
    | inr h => right; simpa using h
  · left; rfl

@[simp] lemma delete_library_snippet_from_content (a : App) (fs : FileStore) :
    (delete_library_snippet_from a fs).1.content = a.content := by
  unfold delete_library_snippet_from
  by_cases h0 : (Option.map (fun lib => lib.snippets.length) a.library).getD 0 = 0
  · simp [h0]
  · simp only [h0, if_false]
    cases delete_snippet a.library_selected fs with
    | ok fs2 =>
      simp only
      cases load_library fs2 <;> dsimp only <;>
        first
        | rfl
        | (split_ifs <;> rfl)
    | error e => rfl

@[simp] lemma delete_library_snippet_from_mode (a : App) (fs : FileStore) :
    (delete_library_snippet_from a fs).1.mode = a.mode := by
  unfold delete_library_snippet_from
  by_cases h0 : (Option.map (fun lib => lib.snippets.length) a.library).getD 0 = 0
  · simp [h0]
  · simp only [h0, if_false]
    cases delete_snippet a.library_selected fs with
    | ok fs2 =>
      simp only
      cases load_library fs2 <;> dsimp only <;>
        first
        | rfl
        | (split_ifs <;> rfl)
    | error e => rfl

@[simp] lemma delete_library_snippet_content (env : Env) (w : World) :
    (delete_library_snippet env w).app.content = w.app.content := by
  unfold delete_library_snippet
  split_ifs <;> simp

@[simp] lemma delete_library_snippet_mode (env : Env) (w : World) :
    (delete_library_snippet env w).app.mode = w.app.mode := by
  unfold delete_library_snippet
  split_ifs <;> simp

@[simp] lemma rename_library_snippet_from_content (a : App) (fs : FileStore) :
    (rename_library_snippet_from a fs).1.content = a.content := by
  unfold rename_library_snippet_from
  by_cases ht : rustTrim a.title_input = ""
  · simp [ht]
  · simp only [ht, if_false]
    cases rename_snippet a.library_selected (rustTrim a.title_input) fs with
    | ok fs2 =>
      simp only
      cases load_library fs2 <;> simp
    | error e => rfl

lemma rename_library_snippet_from_mode (a : App) (fs : FileStore) :
    (rename_library_snippet_from a fs).1.mode = .libraryBrowse ∨
    (rename_library_snippet_from a fs).1.mode = a.mode := by
  unfold rename_library_snippet_from
  by_cases ht : rustTrim a.title_input = ""
  · right; simp [ht]
  · simp only [ht, if_false]
    cases rename_snippet a.library_selected (rustTrim a.title_input) fs with
    | ok fs2 =>
      simp only
      cases load_library fs2 <;> simp
    | error e => left; rfl

@[simp] lemma rename_library_snippet_content (env : Env) (w : World) :
    (rename_library_snippet env w).app.content = w.app.content := by
  unfold rename_library_snippet
  split_ifs <;> simp

lemma rename_library_snippet_mode (env : Env) (w : World) :
    (rename_library_snippet env w).app.mode = .libraryBrowse ∨
    (rename_library_snippet env w).app.mode = w.app.mode := by
  unfold rename_library_snippet
  split_ifs
  · exact rename_library_snippet_from_mode w.app w.store
  · left; rfl

/-- The anchor discipline: outside of VisualSelect and TitleInput the
visual anchor is absent. -/
def anchorInv (w : World) : Prop :=
  w.app.mode ≠ .visualSelect → w.app.mode ≠ .titleInput →
    w.app.content.visual_anchor = none

lemma anchorInv_step (env : Env) (k : KeyEvent) (w : World) (h : anchorInv w) :
    anchorInv (handle_key_event env k w) := by
  obtain ⟨a, fs⟩ := w
  obtain ⟨ex, mo, ts, ap, co, ti, stm, li, ls⟩ := a
  unfold anchorInv at h ⊢
  simp only at h
  unfold handle_key_event
  split_ifs with hc
  · intro h1 h2
    simp only at h1 h2 ⊢
    exact h h1 h2
  · simp only
    cases mo with
    | normal =>
      have hco : co.visual_anchor = none := h (by simp) (by simp)
      unfold handle_normal_key
      cases k.code <;>
        simp only [] <;>
        (try split_ifs) <;>
        intro h1 h2 <;>
        simp_all [load_selected_content_anchor, select_tree_item_anchor]
    | visualSelect =>
      unfold handle_visual_select_key
      cases k.code <;>
        simp only [] <;>
        (try split_ifs) <;>
        intro h1 h2 <;>
        simp_all
    | titleInput =>
      unfold handle_title_input_key
      cases k.code <;> simp only [] <;> intro h1 h2 <;> try simp_all
      rcases save_current_snippet_anchor_or_mode env
        { app := { exit := ex, mode := .titleInput, tree_state := ts, active_pane := ap,
                   content := co, title_input := ti, status_message := none,
                   library := li, library_selected := ls },
          store := fs } with hs | hs
      · exact hs
      · exact absurd hs h2
    | libraryBrowse =>
      have hco : co.visual_anchor = none := h (by simp) (by simp)
      unfold handle_library_browse_key
      cases k.code <;>
        simp only [] <;>
        (try split_ifs) <;>
        intro h1 h2 <;>
        (try rcases li with _ | lib) <;>
        (first
          | (simp_all; done)
          | (split <;> (try split) <;> simp_all))
    | renameInput =>
      have hco : co.visual_anchor = none := h (by simp) (by simp)
      unfold handle_rename_input_key
      cases k.code <;> simp only [] <;> intro h1 h2 <;> simp_all

lemma anchorInv_init (env : Env) (roots : List SourceRoot) (fs : FileStore) :
    anchorInv (initWorld env roots fs) := by
  intro h1 h2
  exact load_selected_content_anchor env _ rfl

lemma anchorInv_reachable (env : Env) (w : World) (h : Reachable env w) :
    anchorInv w := by
  induction h with
  | start roots fs => exact anchorInv_init env roots fs
  | step w k hw ih => exact anchorInv_step env k w ih

/-- Reachable TitleInput state with a set anchor: fresh session over no
roots, Tab into the content pane, v to select, s to ask for a title. -/
def c6W : World :=
  handle_key_event env9 { code := .char 's', ctrl := false }
    (handle_key_event env9 { code := .char 'v', ctrl := false }
      (handle_key_event env9 { code := .tab, ctrl := false }
        (initWorld env9 [] { file := none, writable := true })))

/-- Claim C6, counterexample: a reachable state in TitleInput mode, which
is not VisualSelect, still carries the visual anchor, against the claim
that the anchor is none in every mode other than VisualSelect. -/
theorem C6_counterexample :
    Reachable env9 c6W ∧
    c6W.app.mode = .titleInput ∧
    c6W.app.mode ≠ .visualSelect ∧
    c6W.app.content.visual_anchor = some 0 := by
  refine ⟨?_, by decide, by decide, by decide⟩
  exact Reachable.step _ _ (Reachable.step _ _ (Reachable.step _ _ (Reachable.start _ _)))

/-- Claim C6 as amended: pressing v in the content pane in Normal mode
sets the anchor to the cursor and enters VisualSelect, and in every
reachable state the anchor is none in every mode other than VisualSelect
and TitleInput; TitleInput keeps the anchor of the selection being
saved. -/
theorem C6_anchor_discipline :
    (∀ (env : Env) (w : World), w.app.mode = .normal → w.app.active_pane = .content →
      (handle_key_event env { code := .char 'v', ctrl := false } w).app.content.visual_anchor =
        some w.app.content.cursor ∧
      (handle_key_event env { code := .char 'v', ctrl := false } w).app.mode = .visualSelect) ∧
    (∀ (env : Env) (w : World), Reachable env w →
      w.app.mode ≠ .visualSelect → w.app.mode ≠ .titleInput →
      w.app.content.visual_anchor = none) := by
  constructor
  · intro env w hm hp
    constructor <;> simp [handle_key_event, handle_normal_key, hm, hp]
  · intro env w hw h1 h2
    exact anchorInv_reachable env w hw h1 h2

/-- Normal-mode world with the content pane active, one Tab from start. -/
def c6WTab : World :=
  handle_key_event env9 { code := .tab, ctrl := false }
    (initWorld env9 [] { file := none, writable := true })

theorem C6_anchor_discipline_witness :
    c6WTab.app.mode = .normal ∧
    (handle_key_event env9 { code := .char 'v', ctrl := false } c6WTab).app.content.visual_anchor =
      some 0 ∧
    (initWorld env9 [] { file := none, writable := true }).app.content.visual_anchor = none := by
  refine ⟨by decide, ?_, ?_⟩
  · have h := (C6_anchor_discipline.1 env9 c6WTab rfl rfl).1
    rw [h]
    decide
  · exact C6_anchor_discipline.2 env9 _ (Reachable.start _ _) (by decide) (by decide)

@[simp] lemma modifyIdx_length (f : α → α) (i : Nat) (l : List α) :
    (modifyIdx f i l).length = l.length := by
  induction l generalizing i with
  | nil => cases i <;> rfl
  | cons a rest ih =>
    cases i with
    | zero => rfl
    | succ n => simp [modifyIdx, ih]

@[simp] lemma load_file_content_library (env : Env) (p : String) (a : App) :
    (load_file_content env p a).library = a.library := rfl

@[simp] lemma load_file_content_library_selected (env : Env) (p : String) (a : App) :
    (load_file_content env p a).library_selected = a.library_selected := rfl

@[simp] lemma load_selected_content_library (env : Env) (a : App) :
    (load_selected_content env a).library = a.library := by
  unfold load_selected_content
  split_ifs
  · rfl
  · cases a.tree_state.selected.getLast? <;> simp

@[simp] lemma load_selected_content_library_selected (env : Env) (a : App) :
    (load_selected_content env a).library_selected = a.library_selected := by
  unfold load_selected_content
  split_ifs
  · rfl
  · cases a.tree_state.selected.getLast? <;> simp

@[simp] lemma select_tree_item_library (env : Env) (a : App) :
    (select_tree_item env a).library = a.library := by
  unfold select_tree_item
  split_ifs <;> simp

@[simp] lemma select_tree_item_library_selected (env : Env) (a : App) :
    (select_tree_item env a).library_selected = a.library_selected := by
  unfold select_tree_item
  split_ifs <;> simp

@[simp] lemma save_current_snippet_to_library (a : App) (fs : FileStore) :
    (save_current_snippet_to a fs).1.library = a.library := by
  unfold save_current_snippet_to reset_to_normal
  by_cases ht : rustTrim a.title_input = ""
  · simp [ht]
  · simp only [ht, if_false]
    split <;> (try split) <;> rfl

@[simp] lemma save_current_snippet_to_library_selected (a : App) (fs : FileStore) :
    (save_current_snippet_to a fs).1.library_selected = a.library_selected := by
  unfold save_current_snippet_to reset_to_normal
  by_cases ht : rustTrim a.title_input = ""
  · simp [ht]
  · simp only [ht, if_false]
    split <;> (try split) <;> rfl

@[simp] lemma save_current_snippet_library (env : Env) (w : World) :
    (save_current_snippet env w).app.library = w.app.library := by
  unfold save_current_snippet
  split_ifs <;> simp [reset_to_normal]

@[simp] lemma save_current_snippet_library_selected (env : Env) (w : World) :
    (save_current_snippet env w).app.library_selected = w.app.library_selected := by
  unfold save_current_snippet
  split_ifs <;> simp [reset_to_normal]

lemma save_current_snippet_mode_or (env : Env) (w : World) :
    (save_current_snippet env w).app.mode = .normal ∨
    (save_current_snippet env w).app.mode = w.app.mode := by
  unfold save_current_snippet save_current_snippet_to reset_to_normal
  split_ifs with hp
  · by_cases ht : rustTrim w.app.title_input = ""
    · right; simp [ht]
    · simp only [ht, if_false]
      split <;> (try split) <;> (left; rfl)
  · left; rfl

/-- The selected-index discipline of the library view: 0 on an empty
view, within bounds on a non-empty view. -/
def selInv (a : App) : Prop :=
  ∀ lib, a.library = some lib →
    (lib.snippets = [] → a.library_selected = 0) ∧
    (lib.snippets ≠ [] → a.library_selected < lib.snippets.length)

/-- In the library modes the view mirrors the store contents. -/
def viewSync (w : World) : Prop :=
  w.app.mode = .libraryBrowse ∨ w.app.mode = .renameInput →
    w.app.library = some (w.store.file.getD { snippets := [] })

/-- The combined library-view invariant. -/
def libInv (w : World) : Prop := selInv w.app ∧ viewSync w

lemma delete_from_inv (a : App) (fs : FileStore) (hsel : selInv a)
    (hsync : a.library = some (fs.file.getD { snippets := [] })) :
    selInv (delete_library_snippet_from a fs).1 ∧
    (delete_library_snippet_from a fs).1.library =
      some ((delete_library_snippet_from a fs).2.file.getD { snippets := [] }) := by
  unfold delete_library_snippet_from
  by_cases h0 : (Option.map (fun lib => lib.snippets.length) a.library).getD 0 = 0
  · simpa [h0] using ⟨hsel, hsync⟩
  · simp only [h0, if_false]
    set lib := fs.file.getD { snippets := [] } with hlib
    have hlen : lib.snippets.length ≠ 0 := by
      rw [hsync] at h0
      simpa using h0
    have hs : a.library_selected < lib.snippets.length :=
      (hsel lib hsync).2 (fun h => hlen (by simp [h]))
    have hload : load_library fs = .ok lib := by
      cases hf : fs.file <;> simp [load_library, hf, hlib]
    by_cases hw : fs.writable
    · have hdel : delete_snippet a.library_selected fs =
          .ok { fs with file := some { snippets := lib.snippets.eraseIdx a.library_selected } } := by
        simp [delete_snippet, hload, except_ok_bind, hs, save_library, hw]
      rw [hdel]
      simp only [load_library]
      have herase : (lib.snippets.eraseIdx a.library_selected).length =
          lib.snippets.length - 1 := by
        simp [List.length_eraseIdx, hs]
      constructor
      · intro lib2 hl2
        split_ifs at hl2 ⊢ with h1 h2 <;>
          simp only [Option.some.injEq] at hl2 <;>
          subst hl2 <;>
          dsimp only <;>
          constructor <;>
          intro hx <;>
          first
          | (have h0 := congrArg List.length hx
             simp only [List.length_nil] at h0
             omega)
          | (have h0 : (lib.snippets.eraseIdx a.library_selected).length ≠ 0 :=
               fun hh => hx (List.length_eq_zero.mp hh)
             omega)
      · split_ifs <;> rfl
    · have hdel : delete_snippet a.library_selected fs = .error "write failed" := by
        simp [delete_snippet, hload, except_ok_bind, hs, save_library, hw]
      rw [hdel]
      exact ⟨fun lib2 hl2 => hsel lib2 hl2, hsync⟩

lemma rename_from_inv (a : App) (fs : FileStore) (hsel : selInv a)
    (hsync : a.library = some (fs.file.getD { snippets := [] })) :
    selInv (rename_library_snippet_from a fs).1 ∧
    (rename_library_snippet_from a fs).1.library =
      some ((rename_library_snippet_from a fs).2.file.getD { snippets := [] }) := by
  unfold rename_library_snippet_from
  by_cases ht : rustTrim a.title_input = ""
  · simpa [ht] using ⟨hsel, hsync⟩
  · simp only [ht, if_false]
    set lib := fs.file.getD { snippets := [] } with hlib
    have hload : load_library fs = .ok lib := by
      cases hf : fs.file <;> simp [load_library, hf, hlib]
    by_cases hs : a.library_selected < lib.snippets.length
    · by_cases hw : fs.writable
      · have hren : rename_snippet a.library_selected (rustTrim a.title_input) fs =
            .ok { fs with file := some { snippets := renameAt (rustTrim a.title_input) a.library_selected lib.snippets } } := by
          simp [rename_snippet, hload, except_ok_bind, hs, save_library, hw, renameAt]
        rw [hren]
        simp only [load_library]
        constructor
        · intro lib2 hl2
          simp only [Option.some.injEq] at hl2
          subst hl2
          have hlen : (renameAt (rustTrim a.title_input) a.library_selected lib.snippets).length =
              lib.snippets.length := by simp [renameAt]
          constructor
          · intro hx
            have h0 := congrArg List.length hx
            simp only [List.length_nil] at h0
            omega
          · intro hx
            simpa [hlen] using hs
        · rfl
      · have hren : rename_snippet a.library_selected (rustTrim a.title_input) fs =
            .error "write failed" := by
          simp [rename_snippet, hload, except_ok_bind, hs, save_library, hw]
        rw [hren]
        exact ⟨fun lib2 hl2 => hsel lib2 hl2, hsync⟩
    · have hren : rename_snippet a.library_selected (rustTrim a.title_input) fs = .ok fs := by
        simp [rename_snippet, hload, except_ok_bind, hs]
      rw [hren]
      simp only [hload]
      refine ⟨?_, ?_⟩
      · intro lib2 hl2
        simp only [Option.some.injEq] at hl2
        subst hl2
        exact hsel _ hsync
      · trivial

lemma enter_library_browse_inv (env : Env) (w : World) (h : libInv w) :
    libInv (enter_library_browse env w) := by
  unfold enter_library_browse enter_library_browse_from
  split_ifs with hp
  · cases hf : w.store.file with
    | none =>
      have hloadw : load_library w.store = .ok { snippets := [] } := by
        simp [load_library, hf]
      constructor
      · intro lib2 hl2
        simp only [hloadw, Option.some.injEq] at hl2
        subst hl2
        refine ⟨fun _ => ?_, fun hne => absurd rfl hne⟩
        simp [hloadw]
      · intro hm
        simp [hloadw, hf]
    | some l =>
      have hloadw : load_library w.store = .ok l := by
        simp [load_library, hf]
      constructor
      · intro lib2 hl2
        simp only [hloadw, Option.some.injEq] at hl2
        subst hl2
        constructor
        · intro hx
          simp [hloadw]
        · intro hne
          have h0 : l.snippets.length ≠ 0 := fun hh => hne (List.length_eq_zero.mp hh)
          simp only [hloadw]
          show 0 < l.snippets.length
          omega
      · intro hm
        simp [hloadw, hf]
  · exact ⟨fun lib2 hl2 => h.1 lib2 hl2, fun hm => h.2 hm⟩

lemma selInv_of_eq {b : App} (li : Option SnippetLibrary) (ls : Nat)
    (h1 : b.library = li) (h2 : b.library_selected = ls)
    (hs : ∀ lib, li = some lib →
      (lib.snippets = [] → ls = 0) ∧
      (lib.snippets ≠ [] → ls < lib.snippets.length)) : selInv b := by
  intro lib hl
  rw [h1] at hl
  rw [h2]
  exact hs lib hl

lemma libInv_save (env : Env) (w : World) (hs : selInv w.app)
    (hmode : w.app.mode = .titleInput) : libInv (save_current_snippet env w) := by
  refine ⟨?_, ?_⟩
  · intro lib hl
    rw [save_current_snippet_library] at hl
    rw [save_current_snippet_library_selected]
    exact hs lib hl
  · intro hm
    rcases save_current_snippet_mode_or env w with hmo | hmo <;>
      rcases hm with hm | hm <;> rw [hmo] at hm <;> simp [hmode] at hm

lemma libInv_delete (env : Env) (w : World) (hs : selInv w.app)
    (hsy : w.app.library = some (w.store.file.getD { snippets := [] })) :
    libInv (delete_library_snippet env w) := by
  unfold delete_library_snippet
  split_ifs
  · have hd := delete_from_inv w.app w.store hs hsy
    exact ⟨hd.1, fun _ => hd.2⟩
  · exact ⟨selInv_of_eq w.app.library w.app.library_selected (by simp) (by simp) hs,
      fun _ => hsy⟩

lemma libInv_rename (env : Env) (w : World) (hs : selInv w.app)
    (hsy : w.app.library = some (w.store.file.getD { snippets := [] })) :
    libInv (rename_library_snippet env w) := by
  unfold rename_library_snippet
  split_ifs
  · have hr := rename_from_inv w.app w.store hs hsy
    exact ⟨hr.1, fun _ => hr.2⟩
  · exact ⟨selInv_of_eq w.app.library w.app.library_selected (by simp) (by simp) hs,
      fun _ => hsy⟩

lemma libInv_step (env : Env) (k : KeyEvent) (w : World) (h : libInv w) :
    libInv (handle_key_event env k w) := by
  obtain ⟨hsel0, hsync0⟩ := h
  obtain ⟨a, fs⟩ := w
  obtain ⟨ex, mo, ts, ap, co, ti, stm, li, ls⟩ := a
  have hsel : ∀ lib, li = some lib →
      (lib.snippets = [] → ls = 0) ∧
      (lib.snippets ≠ [] → ls < lib.snippets.length) :=
    fun lib hl => hsel0 lib hl
  have hsync : mo = .libraryBrowse ∨ mo = .renameInput →
      li = some (fs.file.getD { snippets := [] }) :=
    fun hm => hsync0 hm
  clear hsel0 hsync0
  unfold handle_key_event
  split_ifs with hc
  · exact ⟨selInv_of_eq li ls rfl rfl hsel, fun hm => hsync hm⟩
  · simp only
    cases mo with
    | normal =>
      unfold handle_normal_key
      cases k.code <;> simp only [] <;> (try split_ifs) <;>
        first
        | exact ⟨selInv_of_eq li ls (by simp) (by simp) hsel,
            fun hm => by rcases hm with hm | hm <;> simp at hm⟩
        | exact enter_library_browse_inv env _
            ⟨fun lib hl => hsel lib hl,
             fun hm => by rcases hm with hm | hm <;> simp at hm⟩
    | visualSelect =>
      unfold handle_visual_select_key
      cases k.code <;> simp only [] <;> (try split_ifs) <;>
        exact ⟨selInv_of_eq li ls (by simp) (by simp) hsel,
          fun hm => by rcases hm with hm | hm <;> simp at hm⟩
    | titleInput =>
      unfold handle_title_input_key
      cases k.code <;> simp only [] <;>
        first
        | exact libInv_save env _ (fun lib hl => hsel lib hl) rfl
        | exact ⟨selInv_of_eq li ls (by simp) (by simp) hsel,
            fun hm => by rcases hm with hm | hm <;> simp at hm⟩
    | libraryBrowse =>
      have hli : li = some (fs.file.getD { snippets := [] }) := hsync (Or.inl rfl)
      unfold handle_library_browse_key
      cases k.code with
      | esc =>
        exact ⟨fun lib hl => by simp at hl,
          fun hm => by rcases hm with hm | hm <;> simp at hm⟩
      | down =>
        simp only []
        (try dsimp only)
        split_ifs with hj
        · refine ⟨?_, fun hm => hli⟩
          intro lib hl
          have hl2 : li = some lib := hl
          rw [hl2] at hj
          simp at hj
          refine ⟨fun he => ?_, fun hne => ?_⟩
          · have h0 := congrArg List.length he
            simp only [List.length_nil] at h0
            omega
          · show ls + 1 < lib.snippets.length
            omega
        · exact ⟨selInv_of_eq li ls rfl rfl hsel, fun hm => hli⟩
      | up =>
        simp only []
        refine ⟨?_, fun hm => hli⟩
        intro lib hl
        have hl2 : li = some lib := hl
        have h2 := hsel lib hl2
        refine ⟨fun he => ?_, fun hne => ?_⟩
        · show ls - 1 = 0
          have := h2.1 he
          omega
        · show ls - 1 < lib.snippets.length
          have := h2.2 hne
          omega
      | char c =>
        simp only []
        by_cases hq : c = 'q'
        · rw [if_pos hq]
          exact ⟨fun lib hl => by simp at hl,
            fun hm => by rcases hm with hm | hm <;> simp at hm⟩
        · rw [if_neg hq]
          by_cases hj : c = 'j'
          · rw [if_pos hj]
            (try dsimp only)
            split_ifs with hcond
            · refine ⟨?_, fun hm => hli⟩
              intro lib hl
              have hl2 : li = some lib := hl
              rw [hl2] at hcond
              simp at hcond
              refine ⟨fun he => ?_, fun hne => ?_⟩
              · have h0 := congrArg List.length he
                simp only [List.length_nil] at h0
                omega
              · show ls + 1 < lib.snippets.length
                omega
            · exact ⟨selInv_of_eq li ls rfl rfl hsel, fun hm => hli⟩
          · rw [if_neg hj]
            by_cases hk : c = 'k'
            · rw [if_pos hk]
              refine ⟨?_, fun hm => hli⟩
              intro lib hl
              have hl2 : li = some lib := hl
              have h2 := hsel lib hl2
              refine ⟨fun he => ?_, fun hne => ?_⟩
              · show ls - 1 = 0
                have := h2.1 he
                omega
              · show ls - 1 < lib.snippets.length
                have := h2.2 hne
                omega
            · rw [if_neg hk]
              by_cases hd : c = 'd'
              · rw [if_pos hd]
                exact libInv_delete env _ (fun lib hl => hsel lib hl) hli
              · rw [if_neg hd]
                by_cases hr : c = 'r'
                · rw [if_pos hr]
                  rw [hli]
                  dsimp only
                  split
                  · refine ⟨?_, fun hm => rfl⟩
                    intro lib hl
                    have hl2 : some (fs.file.getD { snippets := [] }) = some lib := hl
                    exact hsel lib (hli.trans hl2)
                  · refine ⟨?_, fun hm => rfl⟩
                    intro lib hl
                    have hl2 : some (fs.file.getD { snippets := [] }) = some lib := hl
                    exact hsel lib (hli.trans hl2)
                · rw [if_neg hr]
                  exact ⟨selInv_of_eq li ls rfl rfl hsel, fun hm => hli⟩
      | _ =>
        exact ⟨selInv_of_eq li ls rfl rfl hsel, fun hm => hli⟩
    | renameInput =>
      have hli : li = some (fs.file.getD { snippets := [] }) := hsync (Or.inr rfl)
      unfold handle_rename_input_key
      cases k.code <;> simp only [] <;>
        first
        | exact libInv_rename env _ (fun lib hl => hsel lib hl) hli
        | exact ⟨selInv_of_eq li ls rfl rfl hsel, fun hm => hli⟩

lemma libInv_init (env : Env) (roots : List SourceRoot) (fs : FileStore) :
    libInv (initWorld env roots fs) := by
  constructor
  · intro lib hl
    simp [initWorld, App.new] at hl
  · intro hm
    rcases hm with hm | hm <;> simp [initWorld, App.new] at hm

lemma libInv_reachable (env : Env) (w : World) (h : Reachable env w) : libInv w := by
  induction h with
  | start roots fs => exact libInv_init env roots fs
  | step w k hw ih => exact libInv_step env k w ih

/-- Claim C10: in every reachable state, whenever the in-memory library
view is present, the selected index is 0 on an empty view and a valid
index into the snippet list on a non-empty view; in particular this holds
after entering LibraryBrowse and is preserved by every key event. -/
theorem C10_library_selected_valid (env : Env) (w : World) (h : Reachable env w) :
    ∀ lib, w.app.library = some lib →
      (lib.snippets = [] → w.app.library_selected = 0) ∧
      (lib.snippets ≠ [] → w.app.library_selected < lib.snippets.length) :=
  (libInv_reachable env w h).1

/-- Reachable LibraryBrowse state over a one-snippet store. -/
def c10W : World :=
  handle_key_event env9 { code := .char 'L', ctrl := false }
    (handle_key_event env9 { code := .tab, ctrl := false }
      (initWorld env9 []
        { file := some { snippets := [{ title := "A", content := "c", source := "/t" }] },
          writable := true }))

theorem C10_library_selected_valid_witness :
    c10W.app.library = some { snippets := [{ title := "A", content := "c", source := "/t" }] } ∧
    c10W.app.library_selected <
      ({ snippets := [{ title := "A", content := "c", source := "/t" }] } : SnippetLibrary).snippets.length := by
  refine ⟨by decide, ?_⟩
  have h := C10_library_selected_valid env9 c10W
    (Reachable.step _ _ (Reachable.step _ _ (Reachable.start _ _)))
    { snippets := [{ title := "A", content := "c", source := "/t" }] } (by decide)
  exact h.2 (by decide)

/-- The four cursor operations of the claim. -/
inductive CursorOp where
  | down
  | up
  | pageDown
  | pageUp
  deriving Repr, DecidableEq

/-- Apply one cursor operation. -/
def applyOp : CursorOp → ContentState → ContentState
  | .down, st => st.cursor_down
  | .up, st => st.cursor_up
  | .pageDown, st => st.cursor_page_down
  | .pageUp, st => st.cursor_page_up

/-- Apply a sequence of cursor operations, left to right. -/
def applyOps (ops : List CursorOp) (st : ContentState) : ContentState :=
  ops.foldl (fun s o => applyOp o s) st

/-- The invariant of the claim: cursor within bounds, and the cursor kept
inside the scroll window whenever the viewport has positive height. -/
def C1Inv (st : ContentState) : Prop :=
  st.cursor ≤ st.max_cursor ∧
  (0 < st.viewport_height →
    st.scroll ≤ st.cursor ∧ st.cursor ≤ st.scroll + st.viewport_height - 1)

/-- Claim C1 as stated: from any reset state (cursor 0, scroll 0), every
sequence of cursor operations leaves the invariant true. -/
def C1Claim : Prop :=
  ∀ (st : ContentState) (ops : List CursorOp),
    st.cursor = 0 → st.scroll = 0 → C1Inv (applyOps ops st)

lemma applyOp_text (op : CursorOp) (st : ContentState) :
    (applyOp op st).text = st.text := by
  cases op <;>
    simp only [applyOp, ContentState.cursor_down, ContentState.cursor_up,
      ContentState.cursor_page_down, ContentState.cursor_page_up,
      ContentState.ensure_cursor_visible] <;>
    split_ifs <;> rfl

lemma applyOp_vh (op : CursorOp) (st : ContentState) :
    (applyOp op st).viewport_height = st.viewport_height := by
  cases op <;>
    simp only [applyOp, ContentState.cursor_down, ContentState.cursor_up,
      ContentState.cursor_page_down, ContentState.cursor_page_up,
      ContentState.ensure_cursor_visible] <;>
    split_ifs <;> rfl

lemma applyOp_line_count (op : CursorOp) (st : ContentState) :
    (applyOp op st).line_count = st.line_count := by
  unfold ContentState.line_count
  rw [applyOp_text]

lemma ensure_cursor_visible_inv (st : ContentState)
    (hc16 : st.cursor < 65536) (hcur : st.cursor ≤ st.max_cursor) :
    C1Inv st.ensure_cursor_visible := by
  unfold C1Inv ContentState.ensure_cursor_visible
  split_ifs with h1 h2
  · refine ⟨hcur, fun hvh => ?_⟩
    replace hvh : 0 < st.viewport_height := hvh
    show st.cursor % 65536 ≤ st.cursor ∧
      st.cursor ≤ st.cursor % 65536 + st.viewport_height - 1
    omega
  · refine ⟨hcur, fun hvh => ?_⟩
    replace hvh : 0 < st.viewport_height := hvh
    show (st.cursor - st.viewport_height + 1) % 65536 ≤ st.cursor ∧
      st.cursor ≤ (st.cursor - st.viewport_height + 1) % 65536 + st.viewport_height - 1
    omega
  · refine ⟨hcur, fun hvh => ?_⟩
    omega

lemma c1_step (op : CursorOp) (st : ContentState)
    (hlc : st.line_count ≤ 65536) (h : C1Inv st) : C1Inv (applyOp op st) := by
  have hmaxb : st.max_cursor ≤ 65535 := by
    unfold ContentState.max_cursor
    omega
  have hcb : st.cursor ≤ 65535 := le_trans h.1 hmaxb
  cases op with
  | down =>
    show C1Inv st.cursor_down
    unfold ContentState.cursor_down
    split_ifs with hlt
    · refine ensure_cursor_visible_inv _ ?_ ?_
      · show st.cursor + 1 < 65536
        omega
      · show st.cursor + 1 ≤ st.max_cursor
        omega
    · exact h
  | up =>
    show C1Inv st.cursor_up
    unfold ContentState.cursor_up
    refine ensure_cursor_visible_inv _ ?_ ?_
    · show st.cursor - 1 < 65536
      omega
    · show st.cursor - 1 ≤ st.max_cursor
      have := h.1
      omega
  | pageDown =>
    show C1Inv st.cursor_page_down
    unfold ContentState.cursor_page_down
    refine ensure_cursor_visible_inv _ ?_ ?_
    · show min (st.cursor + max st.viewport_height 1) st.max_cursor < 65536
      omega
    · show min (st.cursor + max st.viewport_height 1) st.max_cursor ≤ st.max_cursor
      omega
  | pageUp =>
    show C1Inv st.cursor_page_up
    unfold ContentState.cursor_page_up
    refine ensure_cursor_visible_inv _ ?_ ?_
    · show st.cursor - max st.viewport_height 1 < 65536
      omega
    · show st.cursor - max st.viewport_height 1 ≤ st.max_cursor
      have := h.1
      omega

lemma c1_steps (ops : List CursorOp) (st : ContentState)
    (hlc : st.line_count ≤ 65536) (h : C1Inv st) : C1Inv (applyOps ops st) := by
  induction ops generalizing st with
  | nil => exact h
  | cons op rest ih =>
    show C1Inv (applyOps rest (applyOp op st))
    exact ih (applyOp op st) (by rw [applyOp_line_count]; exact hlc) (c1_step op st hlc h)

/-- Claim C1 as amended: the invariant holds along every operation
sequence from the reset state provided the buffer has at most 65536
lines, so that the u16 scroll writes never truncate. -/
theorem C1_cursor_scroll_invariant (st : ContentState) (ops : List CursorOp)
    (hc : st.cursor = 0) (hs : st.scroll = 0) (hlc : st.line_count ≤ 65536) :
    C1Inv (applyOps ops st) := by
  refine c1_steps ops st hlc ⟨?_, fun hvh => ⟨?_, ?_⟩⟩ <;> omega

theorem C1_cursor_scroll_invariant_witness :
    ({ text := some "L0\nL1\nL2\nL3\nL4", scroll := 0, cursor := 0, visual_anchor := none,
       viewport_height := 3 } : ContentState).line_count ≤ 65536 ∧
    C1Inv (applyOps [.down, .down, .down]
      { text := some "L0\nL1\nL2\nL3\nL4", scroll := 0, cursor := 0, visual_anchor := none,
        viewport_height := 3 }) ∧
    (applyOps [.down, .down, .down]
      { text := some "L0\nL1\nL2\nL3\nL4", scroll := 0, cursor := 0, visual_anchor := none,
        viewport_height := 3 }).cursor = 3 ∧
    (applyOps [.down, .down, .down]
      { text := some "L0\nL1\nL2\nL3\nL4", scroll := 0, cursor := 0, visual_anchor := none,
        viewport_height := 3 }).scroll = 1 := by
  refine ⟨by decide, ?_, by decide, by decide⟩
  exact C1_cursor_scroll_invariant _ _ rfl rfl (by decide)

/-- A text of n lines, each the single character a, separated by line
feeds. -/
def mkLinesData : Nat → List Char
  | 0 => []
  | 1 => ['a']
  | n + 2 => 'a' :: '\n' :: mkLinesData (n + 1)

lemma splitNl_mkLinesData (n : Nat) :
    splitNl (mkLinesData (n + 1)) = List.replicate (n + 1) ['a'] := by
  induction n with
  | zero => rfl
  | succ m ih =>
    have hne : ('a' : Char) = '\n' ↔ False := by simp
    show splitNl ('a' :: '\n' :: mkLinesData (m + 1)) = _
    simp only [splitNl, hne, if_false, if_true, eq_self_iff_true, ih]
    simp [List.replicate_succ]

lemma mapExceptLast_length (f : α → α) (l : List α) :
    (mapExceptLast f l).length = l.length := by
  induction l with
  | nil => rfl
  | cons a rest ih =>
    cases rest with
    | nil => rfl
    | cons b r =>
      show (f a :: mapExceptLast f (b :: r)).length = _
      simpa using ih

lemma rustLines_mkLinesData_length (n : Nat) :
    (rustLines (String.mk (mkLinesData (n + 1)))).length = n + 1 := by
  unfold rustLines rustLinesData
  show ((let parts := splitNl (mkLinesData (n + 1));
    if parts.getLast? = some [] then (parts.dropLast).map stripCr
    else mapExceptLast stripCr parts).map (fun l => String.mk l)).length = n + 1
  rw [splitNl_mkLinesData n]
  have hlast : (List.replicate (n + 1) (['a'] : List Char)).getLast? = some ['a'] := by
    rw [List.getLast?_replicate]
    simp
  simp only [hlast]
  rw [if_neg (by simp)]
  simp [mapExceptLast_length]

lemma cursor_down_step (t : String) (m : Nat)
    (hlen : (rustLines t).length = 65537) (hm : m < 65536) :
    ContentState.cursor_down
      { text := some t, scroll := m % 65536, cursor := m, visual_anchor := none,
        viewport_height := 1 } =
      { text := some t, scroll := (m + 1) % 65536, cursor := m + 1, visual_anchor := none,
        viewport_height := 1 } := by
  have hmax : ({ text := some t, scroll := m % 65536, cursor := m, visual_anchor := none, viewport_height := 1 } : ContentState).max_cursor = 65536 := by
    unfold ContentState.max_cursor ContentState.line_count
    simp [hlen]
  unfold ContentState.cursor_down
  rw [if_pos (by rw [hmax]; exact hm)]
  unfold ContentState.ensure_cursor_visible
  rw [if_neg (by simp only []; omega)]
  rw [if_pos (by refine ⟨by norm_num, ?_⟩; simp only []; omega)]
  dsimp only
  simp only [u16Mod, ContentState.mk.injEq]
  refine ⟨trivial, by omega, trivial, trivial, trivial⟩

lemma down_iterate (k : Nat) (hk : k ≤ 65536) :
    (ContentState.cursor_down)^[k]
      { text := some (String.mk (mkLinesData 65537)), scroll := 0, cursor := 0,
        visual_anchor := none, viewport_height := 1 } =
      { text := some (String.mk (mkLinesData 65537)), scroll := k % 65536, cursor := k,
        visual_anchor := none, viewport_height := 1 } := by
  have hlen : (rustLines (String.mk (mkLinesData 65537))).length = 65537 := by
    have h := rustLines_mkLinesData_length 65536
    norm_num at h
    exact h
  induction k with
  | zero => simp
  | succ m ih =>
    rw [Function.iterate_succ_apply', ih (by omega)]
    exact cursor_down_step _ m hlen (by omega)

lemma applyOps_replicate_down (k : Nat) (st : ContentState) :
    applyOps (List.replicate k CursorOp.down) st = (ContentState.cursor_down)^[k] st := by
  induction k generalizing st with
  | zero => rfl
  | succ m ih =>
    rw [List.replicate_succ, Function.iterate_succ_apply]
    exact ih st.cursor_down

/-- Claim C1, counterexample: with a buffer of 65537 lines, a viewport of
height one and 65536 cursor-down steps from the reset state, the u16
scroll write truncates (the code casts the scroll position to u16), so
the cursor, at line 65536, lies far outside the claimed scroll window
ending at scroll + viewport_height - 1 = 0. -/
theorem C1_counterexample : ¬ C1Claim := by
  intro hclaim
  have h := hclaim
    { text := some (String.mk (mkLinesData 65537)), scroll := 0, cursor := 0,
      visual_anchor := none, viewport_height := 1 }
    (List.replicate 65536 CursorOp.down) rfl rfl
  rw [applyOps_replicate_down, down_iterate 65536 (le_refl _)] at h
  have h2 := h.2 (by norm_num)
  revert h2
  show ¬ (65536 % 65536 ≤ 65536 ∧ 65536 ≤ 65536 % 65536 + 1 - 1)
  omega
